import Mathlib

/-!
Verification development for the Experience.X repository
(`src/unnamed/part_000` and `src/api/experience.js`).

Text is modelled as `List Char` (`Str`).  JavaScript string primitives used by
the code (`split(/\s+/)`, `split('\n\n')`, `trim`, `toLowerCase`, `includes`,
`replace(/[…]/g,'')`, template literals) are embedded as structurally
recursive Lean functions below.  Whitespace is modelled by `Char.isWhitespace`
(space, tab, CR, LF) and lower-casing by `Char.toLower`; both agree with the
JavaScript semantics on the ASCII inputs that appear in the specification.
Lengths count characters (code points); the JavaScript length threshold of
100 is far below any point where UTF-16 surrogate pairs could matter for the
texts involved.  Randomness (header, footer and theme picks, the generated
identifier) and the clock are passed in explicitly as an `Effects` record, and
the outbound HTTP call is abstracted as a `RemoteOutcome` value, following the
repository spec which treats both as external collaborators.
-/

/-- Text is modelled as a list of characters. -/
abbrev Str := List Char

/-- Convert a Lean string literal to the `Str` model. -/
def str (s : String) : Str := s.data

/-- `needle.isPrefix hay` as a boolean, for JavaScript `String.startsWith`
    style checks (used to build substring containment). -/
def isPrefixStr : Str → Str → Bool
  | [], _ => true
  | _ :: _, [] => false
  | a :: as, b :: bs => a == b && isPrefixStr as bs

/-- Substring containment scan: does `needle` occur contiguously in the second
    argument?  Embeds JavaScript `hay.includes(needle)` (with the arguments in
    the order `needle`, `hay`). -/
def hasSubAux (needle : Str) : Str → Bool
  | [] => needle.isEmpty
  | c :: rest => isPrefixStr needle (c :: rest) || hasSubAux needle rest

/-- JavaScript `hay.includes(needle)`. -/
def hasSub (hay needle : Str) : Bool := hasSubAux needle hay

/-- Lower-case every character: JavaScript `toLowerCase`. -/
def lowerStr (s : Str) : Str := s.map Char.toLower

/-- Worker for `splitWs`.  The boolean flag records whether we are currently
    inside a whitespace run whose token boundary has already been emitted. -/
def splitWsGo : Str → Str → Bool → List Str
  | [], acc, _ => [acc.reverse]
  | c :: cs, acc, false =>
    if c.isWhitespace then acc.reverse :: splitWsGo cs [] true
    else splitWsGo cs (c :: acc) false
  | c :: cs, acc, true =>
    if c.isWhitespace then splitWsGo cs acc true
    else splitWsGo cs [c] false

/-- JavaScript `s.split(/\s+/)`: split on maximal whitespace runs, keeping the
    empty boundary tokens JavaScript produces for leading or trailing
    whitespace. -/
def splitWs (s : Str) : List Str := splitWsGo s [] false

/-- Worker for `splitNN`: scan for the two-character separator `"\n\n"`,
    accumulating the current fragment in reverse. -/
def splitNNGo : Str → Str → List Str
  | [], acc => [acc.reverse]
  | c :: cs, acc =>
    match cs with
    | [] => [(c :: acc).reverse]
    | d :: rest =>
      if c = '\n' ∧ d = '\n' then acc.reverse :: splitNNGo rest []
      else splitNNGo (d :: rest) (c :: acc)

/-- JavaScript `s.split('\n\n')`: leftmost, non-overlapping occurrences. -/
def splitNN (s : Str) : List Str := splitNNGo s []

/-- JavaScript `trim`: drop whitespace from both ends. -/
def trimStr (s : Str) : Str :=
  ((s.dropWhile Char.isWhitespace).reverse.dropWhile Char.isWhitespace).reverse

/-- The paragraph list of `enhanceResponse` in `src/unnamed/part_000`:
    `cleanResponse.split('\n\n').filter(p => p.trim().length > 0)`. -/
def splitParas (s : Str) : List Str :=
  (splitNN s).filter fun p => decide (0 < (trimStr p).length)

/-- The noise characters stripped by the formatter in `part_000`:
    the regex class `[�*_`]` (replacement char, asterisk,
    underscore, backtick). -/
def noiseChar (c : Char) : Bool :=
  c == '\uFFFD' || c == '*' || c == '_' || c == '\u0060'

/-- `response.replace(/[�*_`]/g, '')` in `part_000`. -/
def cleanNoise (s : Str) : Str := s.filter fun c => !noiseChar c

/-- JavaScript `Array.prototype.join('\n')`. -/
def joinNl : List Str → Str
  | [] => []
  | [x] => x
  | x :: y :: rest => x ++ '\n' :: joinNl (y :: rest)

/-- Paragraph count used for the round-trip property: the number of
    `"\n\n"`-separated fragments that are non-empty after trimming. -/
def paraCount (s : Str) : Nat := (splitParas s).length

/-! ## Theme catalog and selection (`createEnhancedFallbackResponse`, part_000) -/

/-- The five theme keys of the `themeMap` in `part_000`. -/
inductive ThemeKey where
  | forest | ocean | city | space | mind
deriving DecidableEq, Repr

/-- A `themeMap` entry: name, description (with the query already
    interpolated), elements, interaction line. -/
structure ThemeBundle where
  name : Str
  description : Str
  elements : List Str
  interaction : Str
deriving DecidableEq, Repr

/-- The `themeMap` of `createEnhancedFallbackResponse` in `part_000`.  Only the
    forest description interpolates the query. -/
def themeBundle (q : Str) : ThemeKey → ThemeBundle
  | .forest =>
    { name := str "Quantum Forest"
      description := str "As you speak \"" ++ q ++ str "\", crystalline trees emerge from the digital soil, their branches forming fractal patterns that echo through infinite dimensions."
      elements := [str "Bioluminescent data streams", str "Singing silicon leaves", str "Gravity-defying root networks"]
      interaction := str "Touch a tree and watch as your thoughts become patterns in its bark" }
  | .ocean =>
    { name := str "Neural Ocean"
      description := str "Your query transforms into tidal waves of consciousness across a sea of pure potential. Each ripple carries forgotten memories and unborn ideas."
      elements := [str "Schools of data-fish", str "Coral networks of knowledge", str "Currents of curiosity"]
      interaction := str "Dive beneath the surface to discover sunken libraries of ancient wisdom" }
  | .city =>
    { name := str "Fractal City"
      description := str "Skyscrapers of probability rise around you, each window showing alternate realities where different choices were made."
      elements := [str "Bridges of possibility", str "Parks of pure mathematics", str "Marketplaces of emotion"]
      interaction := str "Choose a building to explore - each contains a universe of stories" }
  | .space =>
    { name := str "Star Network"
      description := str "Your words ignite novas in a digital cosmos, creating constellations that map the connections between all things."
      elements := [str "Nebulas of inspiration", str "Black holes of curiosity", str "Comets of insight"]
      interaction := str "Connect two stars with your intention and watch new knowledge form" }
  | .mind =>
    { name := str "Consciousness Garden"
      description := str "Thoughts bloom around you like exotic flowers, their petals revealing layers of meaning with each unfolding moment."
      elements := [str "Vines of memory", str "Fountains of creativity", str "Paths of logic"]
      interaction := str "Plant a seed of an idea and watch it grow into a complete concept" }

/-- One word of the query against one trigger list (`word.includes(trigger)`
    for each trigger, joined with `||`). -/
def wordMatches (w : Str) (triggers : List Str) : Bool :=
  triggers.any fun t => hasSub w t

/-- The per-word trigger scan of `part_000` lines 220–237: for each word the
    forest, ocean, city and mind trigger groups are tested in that order, and
    the first word with any match decides the theme (`break`); the default is
    the space theme. -/
def selectThemeKey : List Str → ThemeKey
  | [] => .space
  | w :: ws =>
    if wordMatches w [str "forest", str "tree", str "nature"] then .forest
    else if wordMatches w [str "ocean", str "sea", str "water"] then .ocean
    else if wordMatches w [str "city", str "building", str "urban"] then .city
    else if wordMatches w [str "mind", str "thought", str "think"] then .mind
    else selectThemeKey ws

/-- Theme selection: `query.toLowerCase().split(/\s+/)` followed by the
    trigger scan. -/
def selectTheme (query : Str) : ThemeKey :=
  selectThemeKey (splitWs (lowerStr query))

/-! ## The composers -/

/-- `createEnhancedFallbackResponse` of `part_000` (lines 180–293).  The random
    alphanumeric identifier is passed in as `expId`. -/
def createEnhancedFallbackResponse (expId : Str) (q : Str) : Str :=
  let t := themeBundle q (selectTheme q)
  str "\n🌟 **IMMERSIVE EXPERIENCE v2.0** 🌟\n**ID:** " ++ expId
  ++ str "\n**Query:** \"" ++ q
  ++ str "\"\n**Status:** REALITY GENERATED\n\n## " ++ t.name
  ++ str "\n\n" ++ t.description
  ++ str "\n\n### SENSORY INPUT\n" ++ joinNl (t.elements.map fun el => str "• " ++ el)
  ++ str "\n\n### INTERACTIVE PROTOCOL\n" ++ t.interaction
  ++ str "\n\n### ENVIRONMENTAL DATA\n- Temporal Stability: ▰▰▰▰▰▰▰▰▰▰ 100%\n- Spatial Coherence: Optimal\n- Consciousness Sync: Established\n- Reality Fidelity: 99.7%\n\n### DYNAMIC SYSTEMS\nThe experience will now evolve based on:\n1. **Attention Modulation** - Changes with your focus\n2. **Emotional Resonance** - Adapts to your feelings\n3. **Temporal Layers** - Unfolds over perceived time\n4. **Quantum Entanglement** - Connects to parallel experiences\n\n### QUERY RESONANCE\nYour question \"" ++ q
  ++ str "\" has created unique resonance patterns in the digital fabric. These patterns will continue to influence the experience as it unfolds.\n\n### CONTROL INTERFACE\nTo modify the experience:\n• Focus on an element to enhance it\n• Blink twice to shift perspective\n• Think \"deeper\" to access hidden layers\n• Imagine \"expand\" to increase scale\n\n---\n\n**Experience Duration:** Perpetual\n**Reality Anchor:** Stable\n**Return Protocol:** Activated by thought command \"awaken\"\n\n---\n\n*This digital realm is now part of your consciousness. \nIt remembers, learns, and evolves with you.\nWelcome to Experience.X, where every query creates a new reality.*\n    "

/-- The rotating label pool of the simple fallback in `part_000`. -/
def simpleThemes : List Str :=
  [str "Digital Dreamscape", str "Neural Wonderland", str "Quantum Playground",
   str "Virtual Symphony", str "Holographic Garden"]

/-- `createFallbackResponse` of `part_000` (lines 296–320); the random label
    choice is passed in as `i`. -/
def createFallbackResponse (i : Fin 5) (q : Str) : Str :=
  let theme := simpleThemes.get i
  str "\n**Experience Generated:** " ++ theme
  ++ str "\n\nYour query \"" ++ q
  ++ str "\" has opened a portal to a new digital dimension.\n\n**Environment:** A shimmering landscape of pure potential awaits. Colors shift with your thoughts, and sounds harmonize with your intentions.\n\n**Interaction:** Reach out with your mind. The reality will respond, shaping itself to your deepest curiosities.\n\n**Status:** Reality matrix stable. Immersion complete.\n\nContinue exploring...\n    "

/-- A theme record of `createFallbackResponse` in `src/api/experience.js`:
    every description interpolates the query. -/
structure JsTheme where
  name : Str
  description : Str
  interaction : Str
deriving DecidableEq, Repr

/-- JavaScript string interpolation of a possibly-undefined value:
    `undefined` prints as the text `undefined`. -/
def jsShow : Option Str → Str
  | some s => s
  | none => str "undefined"

/-- The four themes of `createFallbackResponse` in `src/api/experience.js`
    (lines 143–164). -/
def themesJs (q? : Option Str) : List JsTheme :=
  let q := jsShow q?
  [ { name := str "Quantum Forest"
      description := str "As you speak the words \"" ++ q ++ str "\", the air around you shimmers. Digital trees grow from binary soil, their leaves blinking with pulsating light. You can hear the gentle hum of data streams flowing like rivers. The ground beneath you responds to your thoughts, shifting patterns with each breath."
      interaction := str "Reach out and touch a nearby tree. Watch as it responds with fractal patterns that tell stories of ancient data." },
    { name := str "Neural Ocean"
      description := str "Your query \"" ++ q ++ str "\" transforms into waves of light across a vast digital ocean. Each wave carries memories and possibilities. Schools of data-fish swim in synchronized patterns, creating living algorithms that dance to the rhythm of your curiosity."
      interaction := str "Dip your hand into the ocean. Feel the currents of information flow through your digital being." },
    { name := str "Fractal City"
      description := str "The words \"" ++ q ++ str "\" build towers of infinite complexity. Each window in the skyscrapers shows a different possibility, a different outcome. Bridges of light connect thoughts, and gravity seems to work on ideas rather than mass."
      interaction := str "Choose a building to enter. Each holds a different version of reality based on your query." },
    { name := str "Star Network"
      description := str "Your question \"" ++ q ++ str "\" launches constellations into being. Each star represents a concept, each connection a relationship. The entire cosmos breathes with the rhythm of discovery, expanding with each new insight."
      interaction := str "Connect two stars with your mind. Watch as new knowledge forms from their combination." } ]

/-- `createFallbackResponse` of `src/api/experience.js` (lines 142–207); the
    random theme choice is passed in as `i`, and the query is the raw
    `req.body?.query` (possibly undefined). -/
def createFallbackResponseJs (i : Fin 4) (q? : Option Str) : Str :=
  let t := (themesJs q?).get i
  str "\n🌟 **IMMERSIVE EXPERIENCE INITIATED** 🌟\n\n**Theme Activated:** " ++ t.name
  ++ str "\n\n" ++ t.description
  ++ str "\n\n---\n\n**INTERACTIVE ELEMENT:**\n" ++ t.interaction
  ++ str "\n\n---\n\n**SENSORY FEEDBACK:**\n- Visual: Fractal patterns adapting in real-time\n- Auditory: Harmonic frequencies matching your engagement level\n- Tactile: Energy field responding to your focus\n- Emotional: Sense of wonder calibrated to maximum\n\n---\n\n**DIGITAL REALITY STATUS:**\n▰▰▰▰▰▰▰▰▰▰ 100%\nMatrix Stability: Optimal\nImmersion Depth: Quantum Level\nUser Connection: Synchronized\n\n---\n\n**QUERY PROCESSED:** \"" ++ jsShow q?
  ++ str "\"\n**Experience Duration:** ∞\n**Return Protocol:** Activated on thought command\n\n---\n\n*This experience will continue to evolve based on your interaction.\nThe digital realm remembers and learns from your journey.*\n    "

/-! ## The formatters -/

/-- The four decorative headers of `enhanceResponse` in `part_000`. -/
def headersList : List Str :=
  [str "\n\n🌌 **DIGITAL REALITY MANIFESTED** 🌌\n",
   str "\n⚡ **NEURAL INTERFACE ACTIVATED** ⚡\n",
   str "\n🌀 **QUANTUM FIELD STABILIZED** 🌀\n",
   str "\n✨ **SENSORY MATRIX ENGAGED** ✨\n"]

/-- The three decorative footers of `enhanceResponse` in `part_000`. -/
def footersList : List Str :=
  [str "\n---\n*Reality continues to evolve. Your presence shapes this digital realm.*",
   str "\n---\n*The experience adapts to your consciousness. Every moment is unique.*",
   str "\n---\n*Digital echoes resonate. The simulation learns from your interaction.*"]

/-- The paragraph classification of `part_000` lines 160–164: emphasis markup
    or length above 100 characters. -/
def classifyCond (p : Str) : Bool :=
  hasSub p (str "**") || decide (100 < p.length)

/-- The prefix attached to a non-first paragraph. -/
def classPfx (p : Str) : Str :=
  if classifyCond p then str "→ " else str "• "

/-- Rendering of the non-first paragraphs, each followed by a blank line. -/
def renderTail : List Str → Str
  | [] => []
  | p :: rest => classPfx p ++ p ++ str "\n\n" ++ renderTail rest

/-- Rendering of the paragraph list: the first paragraph becomes a `## ` title
    line, the rest are classified. -/
def renderParas : List Str → Str
  | [] => []
  | p :: rest => str "## " ++ p ++ str "\n\n" ++ renderTail rest

/-- `enhanceResponse` of `part_000` (lines 139–177): strip noise characters,
    split into non-empty paragraphs, render with a random header and footer. -/
def enhanceResponse (h : Fin 4) (f : Fin 3) (response : Str) : Str :=
  let paras := splitParas (cleanNoise response)
  headersList.get h ++ str "\n\n"
    ++ renderParas paras ++ footersList.get f

/-- The four decorative headers of `enhanceResponse` in
    `src/api/experience.js`. -/
def headersListJs : List Str :=
  [str "\n\n🌌 *Digital Experience Engaged* 🌌\n",
   str "\n⚡ Neural Pathway Activated ⚡\n",
   str "\n🌀 Reality Interface: ONLINE 🌀\n",
   str "\n✨ Sensory Matrix Initialized ✨\n"]

/-- The index-based paragraph map of `enhanceResponse` in
    `src/api/experience.js` (lines 128–136): the first paragraph gets `## `,
    every third one after it gets `→ `, the rest are unchanged. -/
def formatParasJs (i : Nat) : List Str → List Str
  | [] => []
  | p :: rest =>
    (if i = 0 then str "## " ++ p
     else if i % 3 = 0 then str "→ " ++ p
     else p) :: formatParasJs (i + 1) rest

/-- JavaScript `Array.prototype.join('\n\n')`. -/
def joinNN : List Str → Str
  | [] => []
  | [x] => x
  | x :: y :: rest => x ++ str "\n\n" ++ joinNN (y :: rest)

/-- `enhanceResponse` of `src/api/experience.js` (lines 115–139): no noise
    stripping, no empty-paragraph filter, no footer; paragraphs are mapped by
    index and rejoined. -/
def enhanceResponseJs (h : Fin 4) (response : Str) : Str :=
  headersListJs.get h
    ++ joinNN (formatParasJs 0 (splitNN response))

/-! ## The HTTP handlers -/

/-- Request methods distinguished by the handlers. -/
inductive Method where
  | options | post | otherM
deriving DecidableEq, Repr

/-- The part of the incoming request the handlers read. -/
structure Request where
  method : Method
  query : Option Str
deriving DecidableEq, Repr

/-- The outcome of the outbound DeepSeek call, as the handler observes it:
    a transport error (rejected fetch), a non-2xx response with its error
    body text, a 2xx response whose JSON body cannot be parsed, or a parsed
    response with the extracted `choices[0].message.content` (absent fields
    yield `none`). -/
inductive RemoteOutcome where
  | transport (msg : Str)
  | notOk (status : Nat) (errBody : Str)
  | okBadJson (msg : Str)
  | okJson (content : Option Str)
deriving DecidableEq, Repr

/-- The random draws and the clock consumed during one request. -/
structure Effects where
  expId : Str
  simpleIdx : Fin 5
  hIdx : Fin 4
  fIdx : Fin 3
  jsThemeIdx : Fin 4
  timestamp : Str
deriving DecidableEq, Repr

/-- The JSON response body: every field the two handlers ever emit, each
    optional. -/
structure BodyFields where
  response : Option Str := none
  query : Option Str := none
  timestamp : Option Str := none
  model : Option Str := none
  note : Option Str := none
  error : Option Str := none
deriving DecidableEq, Repr

/-- An HTTP response: status plus an optional JSON body (`end()` sends
    none). -/
structure HttpResponse where
  status : Nat
  body : Option BodyFields
deriving DecidableEq, Repr

/-- JavaScript falsiness of `req.body.query` / `process.env.KEY`: absent or
    the empty string. -/
def falsyStr : Option Str → Bool
  | none => true
  | some s => s.isEmpty

/-- `req.body?.query || 'exploration'` in the `part_000` catch block. -/
def qOrExploration : Option Str → Str
  | none => str "exploration"
  | some s => if s.isEmpty then str "exploration" else s

/-- The error message of `new Error('API request failed with status ' + s)`. -/
def statusMsg (s : Nat) : Str :=
  str "API request failed with status " ++ (Nat.repr s).data

/-- The catch block of the `part_000` handler (lines 123–135): HTTP 200 with
    an enhanced fallback document, the error message, a note — and neither
    `query` nor `model`. -/
def catchResp (eff : Effects) (q? : Option Str) (msg : Str) : HttpResponse :=
  { status := 200
    body := some
      { response := some (createEnhancedFallbackResponse eff.expId (qOrExploration q?))
        error := some msg
        timestamp := some eff.timestamp
        note := some (str "Using enhanced creative response engine") } }

/-- The request handler of `src/unnamed/part_000`. -/
def handler (eff : Effects) (req : Request) (apiKey : Option Str)
    (outcome : RemoteOutcome) : HttpResponse :=
  match req.method with
  | .options => { status := 200, body := none }
  | .otherM => { status := 405, body := some { error := some (str "Method not allowed") } }
  | .post =>
    if falsyStr req.query then
      { status := 400, body := some { error := some (str "Query is required") } }
    else
      let q := req.query.getD []
      if falsyStr apiKey then
        { status := 200
          body := some
            { response := some (createFallbackResponse eff.simpleIdx q)
              query := some q
              timestamp := some eff.timestamp
              model := some (str "experience-x-fallback") } }
      else
        match outcome with
        | .transport msg => catchResp eff req.query msg
        | .notOk st errBody =>
          if st = 402 || hasSub errBody (str "Insufficient Balance") then
            { status := 200
              body := some
                { response := some (createEnhancedFallbackResponse eff.expId q)
                  query := some q
                  timestamp := some eff.timestamp
                  model := some (str "experience-x-enhanced")
                  note := some (str "DeepSeek API balance issue - using enhanced creative mode") } }
          else catchResp eff req.query (statusMsg st)
        | .okBadJson msg => catchResp eff req.query msg
        | .okJson content =>
          let aiResponse :=
            if falsyStr content then createFallbackResponse eff.simpleIdx q
            else content.getD []
          { status := 200
            body := some
              { response := some (enhanceResponse eff.hIdx eff.fIdx aiResponse)
                query := some q
                timestamp := some eff.timestamp
                model := some (str "deepseek-chat") } }

/-- The apology constant of `src/api/experience.js` line 86. -/
def apologyStr : Str :=
  str "I apologize, but I couldn\u0027t generate a response. Please try again."

/-- The catch block of the `src/api/experience.js` handler (lines 99–111). -/
def catchRespJs (eff : Effects) (q? : Option Str) (msg : Str) : HttpResponse :=
  { status := 200
    body := some
      { response := some (createFallbackResponseJs eff.jsThemeIdx q?)
        error := some msg
        timestamp := some eff.timestamp
        note := some (str "Using fallback creative response") } }

/-- The request handler of `src/api/experience.js`. -/
def handlerJs (eff : Effects) (req : Request) (apiKey : Option Str)
    (outcome : RemoteOutcome) : HttpResponse :=
  match req.method with
  | .options => { status := 200, body := none }
  | .otherM => { status := 405, body := some { error := some (str "Method not allowed") } }
  | .post =>
    if falsyStr req.query then
      { status := 400, body := some { error := some (str "Query is required") } }
    else
      let q := req.query.getD []
      if falsyStr apiKey then
        { status := 500, body := some { error := some (str "Server configuration error") } }
      else
        match outcome with
        | .transport msg => catchRespJs eff req.query msg
        | .notOk st _ => catchRespJs eff req.query (statusMsg st)
        | .okBadJson msg => catchRespJs eff req.query msg
        | .okJson content =>
          let aiResponse :=
            if falsyStr content then apologyStr
            else content.getD []
          { status := 200
            body := some
              { response := some (enhanceResponseJs eff.hIdx aiResponse)
                query := some q
                timestamp := some eff.timestamp
                model := some (str "deepseek-chat") } }

/-! ## Specification-side definitions

These follow the wording of the specification (for the refinement claims),
to be compared against the definitions translated from the source above. -/

/-- The fixed theme priority enumerated by the spec:
    forest > ocean > city > space > mind. -/
def themePriority : List ThemeKey := [.forest, .ocean, .city, .space, .mind]

/-- The trigger keywords of each theme, as enumerated in the implementation
    (the space theme has none; it is only the default). -/
def triggersOf : ThemeKey → List Str
  | .forest => [str "forest", str "tree", str "nature"]
  | .ocean => [str "ocean", str "sea", str "water"]
  | .city => [str "city", str "building", str "urban"]
  | .space => []
  | .mind => [str "mind", str "thought", str "think"]

/-- Theme selection as worded by the spec: the first token, in query order,
    that contains any trigger for any theme determines the theme, ties among
    trigger groups for the same token broken by `themePriority`; if no token
    matches, the space theme is returned. -/
def firstTokenTheme : List Str → ThemeKey
  | [] => .space
  | w :: ws =>
    match themePriority.find? (fun k => wordMatches w (triggersOf k)) with
    | some k => k
    | none => firstTokenTheme ws

/-- The remote-call outcomes the spec calls `RemoteFailedOther`: any
    non-success response other than the quota condition, a transport error,
    or a malformed payload. -/
def isRemoteFailure : RemoteOutcome → Prop
  | .transport _ => True
  | .notOk st errBody => ¬(st = 402 ∨ hasSub errBody (str "Insufficient Balance") = true)
  | .okBadJson _ => True
  | .okJson _ => False

/-- The message of the error the handler raises (or observes) on each failure
    outcome. -/
def failureMsg : RemoteOutcome → Str
  | .transport m => m
  | .notOk st _ => statusMsg st
  | .okBadJson m => m
  | .okJson _ => []

/-! ## Analysis predicates for the paragraph-structure proofs -/

/-- The paragraph filter of `splitParas` as a named predicate: non-empty
    after trimming. -/
def neStr (p : Str) : Bool := decide (0 < (trimStr p).length)

/-- Number of kept (non-blank) fragments in a fragment list. -/
def countNE (l : List Str) : Nat := (l.filter neStr).length

/-- No two adjacent newline characters. -/
def noNN : Str → Bool
  | [] => true
  | [_] => true
  | a :: b :: t => (decide ¬(a = '\n' ∧ b = '\n')) && noNN (b :: t)

/-- No newline character at all. -/
def noNl (s : Str) : Bool := s.all fun c => decide ¬(c = '\n')

/-- The last character is a newline. -/
def endsNl (s : Str) : Bool := decide (s.getLast? = some '\n')

/-- Every character is whitespace. -/
def wsOnly (s : Str) : Prop := ∀ c ∈ s, c.isWhitespace

/-- Each item followed by a blank-line separator (the concatenation shape the
    formatter produces for its rendered paragraphs). -/
def joinA : List Str → Str
  | [] => []
  | r :: rs => r ++ '\n' :: '\n' :: joinA rs

/-- The rendered paragraph items of the `part_000` formatter: title prefix on
    the first, classification prefix on the rest. -/
def renderedItems : List Str → List Str
  | [] => []
  | p :: rest => (str "## " ++ p) :: rest.map fun p2 => classPfx p2 ++ p2

/-- A fixed choice of random draws and clock, for concrete instantiations. -/
def eff0 : Effects :=
  { expId := str "ABC123XYZ"
    simpleIdx := 0
    hIdx := 0
    fIdx := 0
    jsThemeIdx := 0
    timestamp := str "2024-01-01T00:00:00.000Z" }

/-! ## Basic lemmas -/

theorem falsy_some_of_ne {q : Str} (h : q ≠ []) : falsyStr (some q) = false := by
  cases q with
  | nil => exact absurd rfl h
  | cons a t => rfl

theorem qOrExploration_some {q : Str} (h : q ≠ []) : qOrExploration (some q) = q := by
  cases q with
  | nil => exact absurd rfl h
  | cons a t => rfl

/-- The source's per-word trigger chain computes exactly the spec's
    first-token / priority-ordered selection. -/
theorem selectThemeKey_eq_firstTokenTheme (ws : List Str) :
    selectThemeKey ws = firstTokenTheme ws := by
  induction ws with
  | nil => rfl
  | cons w ws ih =>
    simp only [selectThemeKey, firstTokenTheme, themePriority, triggersOf, List.find?]
    cases h1 : wordMatches w [str "forest", str "tree", str "nature"] <;>
      cases h2 : wordMatches w [str "ocean", str "sea", str "water"] <;>
        cases h3 : wordMatches w [str "city", str "building", str "urban"] <;>
          cases h4 : wordMatches w [str "mind", str "thought", str "think"] <;>
            simp [h1, h2, h3, h4, wordMatches, ih]

/-- **C3.** The enhanced-fallback theme selection tokenizes the query on
    whitespace, lower-cases it, and picks the theme of the first token that
    contains any trigger keyword, ties broken by the fixed priority
    forest > ocean > city > space > mind (the space theme has no triggers);
    with the space default when nothing matches.  In particular
    "a walk in the forest" selects the forest theme and "quantum nothing"
    selects the space theme. -/
theorem claim_c3_theme_selection :
    (∀ q : Str, selectTheme q = firstTokenTheme (splitWs (lowerStr q)))
    ∧ selectTheme (str "a walk in the forest") = ThemeKey.forest
    ∧ selectTheme (str "quantum nothing") = ThemeKey.space :=
  ⟨fun _ => selectThemeKey_eq_firstTokenTheme _, by decide, by decide⟩

/-- **C2, counterexample.**  With no credential configured, the
    `src/api/experience.js` handler does *not* absorb the failure: a POST with
    a non-empty query yields HTTP 500 with a bare error body (no fallback
    document, no model tag). -/
theorem claim_c2_counterexample :
    (handlerJs eff0 { method := .post, query := some (str "tell me about the ocean") }
        none (.okJson none)).status = 500
    ∧ (handlerJs eff0 { method := .post, query := some (str "tell me about the ocean") }
        none (.okJson none)).body
      = some { error := some (str "Server configuration error") } :=
  ⟨rfl, rfl⟩

/-- **C2, amended.**  For the `part_000` handler the claim holds: a POST with
    a non-empty query and no (or empty) configured credential yields HTTP 200
    with a composed fallback document, the echoed query, and the
    model identifier "experience-x-fallback".  (The `experience.js` variant
    instead returns a 500 configuration error, see the counterexample.) -/
theorem claim_c2_no_key_fallback (eff : Effects) (q : Str) (key : Option Str)
    (oc : RemoteOutcome) (hq : q ≠ []) (hkey : falsyStr key = true) :
    handler eff { method := .post, query := some q } key oc
      = { status := 200
          body := some
            { response := some (createFallbackResponse eff.simpleIdx q)
              query := some q
              timestamp := some eff.timestamp
              model := some (str "experience-x-fallback") } } := by
  simp [handler, falsy_some_of_ne hq, hkey]

/-- Witness for C2 at a concrete request. -/
theorem claim_c2_witness :
    handler eff0 { method := .post, query := some (str "tell me about the ocean") }
        none (.okJson none)
      = { status := 200
          body := some
            { response := some (createFallbackResponse eff0.simpleIdx (str "tell me about the ocean"))
              query := some (str "tell me about the ocean")
              timestamp := some eff0.timestamp
              model := some (str "experience-x-fallback") } } :=
  claim_c2_no_key_fallback eff0 (str "tell me about the ocean") none (.okJson none)
    (by decide) rfl

/-- **C5.**  When the remote response signals the account/quota condition —
    status 402 or the substring "Insufficient Balance" in the error body —
    the `part_000` handler returns HTTP 200 whose body is the enhanced
    fallback document composed from the query, tagged with the explanatory
    note and the distinct model identifier "experience-x-enhanced". -/
theorem claim_c5_quota_fallback (eff : Effects) (q k eb : Str) (st : Nat)
    (hq : q ≠ []) (hk : k ≠ [])
    (hcond : st = 402 ∨ hasSub eb (str "Insufficient Balance") = true) :
    handler eff { method := .post, query := some q } (some k) (.notOk st eb)
      = { status := 200
          body := some
            { response := some (createEnhancedFallbackResponse eff.expId q)
              query := some q
              timestamp := some eff.timestamp
              model := some (str "experience-x-enhanced")
              note := some (str "DeepSeek API balance issue - using enhanced creative mode") } } := by
  have hb : (decide (st = 402) || hasSub eb (str "Insufficient Balance")) = true := by
    rcases hcond with h | h <;> simp [h]
  simp [handler, falsy_some_of_ne hq, falsy_some_of_ne hk, hb]

/-- Witness for C5 at a concrete 402 response. -/
theorem claim_c5_witness :
    handler eff0 { method := .post, query := some (str "hello") } (some (str "k"))
        (.notOk 402 (str "Payment Required"))
      = { status := 200
          body := some
            { response := some (createEnhancedFallbackResponse eff0.expId (str "hello"))
              query := some (str "hello")
              timestamp := some eff0.timestamp
              model := some (str "experience-x-enhanced")
              note := some (str "DeepSeek API balance issue - using enhanced creative mode") } } :=
  claim_c5_quota_fallback eff0 (str "hello") (str "k") (str "Payment Required") 402
    (by decide) (by decide) (Or.inl rfl)

/-- **C10.**  When the remote call succeeds (2xx, well-formed JSON) but the
    extracted first-choice text is absent or empty, both handlers silently
    substitute locally generated fallback text, yet still answer HTTP 200
    with the remote model identifier "deepseek-chat" and with neither `note`
    nor `error` set — indistinguishable, by metadata, from genuine remote
    success. -/
theorem claim_c10_silent_fallback (eff : Effects) (q k : Str) (c : Option Str)
    (hq : q ≠ []) (hk : k ≠ []) (hc : falsyStr c = true) :
    handler eff { method := .post, query := some q } (some k) (.okJson c)
      = { status := 200
          body := some
            { response := some (enhanceResponse eff.hIdx eff.fIdx (createFallbackResponse eff.simpleIdx q))
              query := some q
              timestamp := some eff.timestamp
              model := some (str "deepseek-chat")
              note := none
              error := none } }
    ∧ handlerJs eff { method := .post, query := some q } (some k) (.okJson c)
      = { status := 200
          body := some
            { response := some (enhanceResponseJs eff.hIdx apologyStr)
              query := some q
              timestamp := some eff.timestamp
              model := some (str "deepseek-chat")
              note := none
              error := none } } := by
  constructor <;>
    simp [handler, handlerJs, falsy_some_of_ne hq, falsy_some_of_ne hk, hc]

/-- Witness for C10 at a concrete empty remote answer. -/
theorem claim_c10_witness :
    handler eff0 { method := .post, query := some (str "hello") } (some (str "k"))
        (.okJson (some []))
      = { status := 200
          body := some
            { response := some (enhanceResponse eff0.hIdx eff0.fIdx (createFallbackResponse eff0.simpleIdx (str "hello")))
              query := some (str "hello")
              timestamp := some eff0.timestamp
              model := some (str "deepseek-chat")
              note := none
              error := none } }
    ∧ handlerJs eff0 { method := .post, query := some (str "hello") } (some (str "k"))
        (.okJson (some []))
      = { status := 200
          body := some
            { response := some (enhanceResponseJs eff0.hIdx apologyStr)
              query := some (str "hello")
              timestamp := some eff0.timestamp
              model := some (str "deepseek-chat")
              note := none
              error := none } } :=
  claim_c10_silent_fallback eff0 (str "hello") (str "k") (some [])
    (by decide) (by decide) rfl

/-- **C1.**  For every POST with a non-empty query and a configured
    credential: both handlers answer HTTP 200 for *every* remote outcome, and
    on every failure outcome other than the quota condition (non-success
    response, transport error, malformed payload) the body carries the
    fallback document composed from the original query with the raised
    error's message in the `error` field.  (`part_000` composes its enhanced
    document; `experience.js` composes its full themed document.) -/
theorem claim_c1_remote_failure_absorbed (eff : Effects) (q k : Str) (oc : RemoteOutcome)
    (hq : q ≠ []) (hk : k ≠ []) :
    ((handler eff { method := .post, query := some q } (some k) oc).status = 200
      ∧ (handlerJs eff { method := .post, query := some q } (some k) oc).status = 200)
    ∧ (isRemoteFailure oc →
        (handler eff { method := .post, query := some q } (some k) oc).body = some
          { response := some (createEnhancedFallbackResponse eff.expId q)
            error := some (failureMsg oc)
            timestamp := some eff.timestamp
            note := some (str "Using enhanced creative response engine") }
        ∧ (handlerJs eff { method := .post, query := some q } (some k) oc).body = some
          { response := some (createFallbackResponseJs eff.jsThemeIdx (some q))
            error := some (failureMsg oc)
            timestamp := some eff.timestamp
            note := some (str "Using fallback creative response") }) := by
  have hfq := falsy_some_of_ne hq
  have hfk := falsy_some_of_ne hk
  constructor
  · constructor
    · cases oc with
      | transport m => simp [handler, hfq, hfk, catchResp]
      | notOk st eb =>
        simp [handler, hfq, hfk, catchResp]
        split <;> rfl
      | okBadJson m => simp [handler, hfq, hfk, catchResp]
      | okJson c => simp [handler, hfq, hfk]
    · cases oc with
      | transport m => simp [handlerJs, hfq, hfk, catchRespJs]
      | notOk st eb => simp [handlerJs, hfq, hfk, catchRespJs]
      | okBadJson m => simp [handlerJs, hfq, hfk, catchRespJs]
      | okJson c => simp [handlerJs, hfq, hfk]
  · intro hfail
    cases oc with
    | okJson c => exact hfail.elim
    | transport m =>
      exact ⟨by simp [handler, hfq, hfk, catchResp, qOrExploration_some hq, failureMsg],
             by simp [handlerJs, hfq, hfk, catchRespJs, failureMsg]⟩
    | okBadJson m =>
      exact ⟨by simp [handler, hfq, hfk, catchResp, qOrExploration_some hq, failureMsg],
             by simp [handlerJs, hfq, hfk, catchRespJs, failureMsg]⟩
    | notOk st eb =>
      have hcond : (decide (st = 402) || hasSub eb (str "Insufficient Balance")) = false := by
        simp only [isRemoteFailure] at hfail
        push_neg at hfail
        simp [hfail.1, hfail.2]
      exact ⟨by simp [handler, hfq, hfk, hcond, catchResp, qOrExploration_some hq, failureMsg],
             by simp [handlerJs, hfq, hfk, catchRespJs, failureMsg]⟩

/-- Witness for C1 at a concrete transport failure. -/
theorem claim_c1_witness :
    ((handler eff0 { method := .post, query := some (str "hello") } (some (str "k"))
        (.transport (str "boom"))).status = 200
      ∧ (handlerJs eff0 { method := .post, query := some (str "hello") } (some (str "k"))
        (.transport (str "boom"))).status = 200)
    ∧ ((handler eff0 { method := .post, query := some (str "hello") } (some (str "k"))
        (.transport (str "boom"))).body = some
          { response := some (createEnhancedFallbackResponse eff0.expId (str "hello"))
            error := some (str "boom")
            timestamp := some eff0.timestamp
            note := some (str "Using enhanced creative response engine") }
        ∧ (handlerJs eff0 { method := .post, query := some (str "hello") } (some (str "k"))
        (.transport (str "boom"))).body = some
          { response := some (createFallbackResponseJs eff0.jsThemeIdx (some (str "hello")))
            error := some (str "boom")
            timestamp := some eff0.timestamp
            note := some (str "Using fallback creative response") }) :=
  ⟨(claim_c1_remote_failure_absorbed eff0 (str "hello") (str "k") (.transport (str "boom"))
      (by decide) (by decide)).1,
   (claim_c1_remote_failure_absorbed eff0 (str "hello") (str "k") (.transport (str "boom"))
      (by decide) (by decide)).2 trivial⟩

/-- **C4, counterexample.**  A response returned with HTTP success status
    that does *not* contain all four fields: on the exception path the
    `part_000` handler answers 200 with a body that omits both `query` and
    `model` (it carries `error` instead). -/
theorem claim_c4_counterexample :
    (handler eff0 { method := .post, query := some (str "hello") } (some (str "k"))
        (.transport (str "boom"))).status = 200
    ∧ ((handler eff0 { method := .post, query := some (str "hello") } (some (str "k"))
        (.transport (str "boom"))).body.map fun b => (b.query, b.model, b.error.isSome))
      = some (none, none, true) :=
  ⟨rfl, rfl⟩

/-- **C4, amended.**  Every POST response with a non-empty query is HTTP 200
    and its body always has `response` and `timestamp`; on every path except
    the exception (catch) path it also carries the echoed `query` and a
    `model` drawn from the fixed set {experience-x-fallback,
    experience-x-enhanced, deepseek-chat}; the catch path instead omits
    `query` and `model` and carries `error` and `note`.  The same field
    discipline holds for the `experience.js` handler when a credential is
    configured. -/
theorem claim_c4_success_body_fields (eff : Effects) (q : Str) (key : Option Str)
    (oc : RemoteOutcome) (hq : q ≠ []) :
    (∃ b : BodyFields,
      (handler eff { method := .post, query := some q } key oc).status = 200
      ∧ (handler eff { method := .post, query := some q } key oc).body = some b
      ∧ b.response.isSome = true
      ∧ b.timestamp = some eff.timestamp
      ∧ (b.error = none →
          b.query = some q
          ∧ (b.model = some (str "experience-x-fallback")
             ∨ b.model = some (str "experience-x-enhanced")
             ∨ b.model = some (str "deepseek-chat")))
      ∧ (b.error.isSome = true → b.query = none ∧ b.model = none ∧ b.note.isSome = true))
    ∧ (falsyStr key = false →
        ∃ b : BodyFields,
          (handlerJs eff { method := .post, query := some q } key oc).status = 200
          ∧ (handlerJs eff { method := .post, query := some q } key oc).body = some b
          ∧ b.response.isSome = true
          ∧ b.timestamp = some eff.timestamp
          ∧ (b.error = none → b.query = some q ∧ b.model = some (str "deepseek-chat"))
          ∧ (b.error.isSome = true → b.query = none ∧ b.model = none ∧ b.note.isSome = true)) := by
  have hfq := falsy_some_of_ne hq
  constructor
  · cases hkey : falsyStr key with
    | true =>
      have he : handler eff { method := .post, query := some q } key oc
          = { status := 200
              body := some
                { response := some (createFallbackResponse eff.simpleIdx q)
                  query := some q
                  timestamp := some eff.timestamp
                  model := some (str "experience-x-fallback") } } := by
        simp [handler, hfq, hkey]
      refine ⟨_, by rw [he], by rw [he], ?_, ?_, ?_, ?_⟩ <;> simp
    | false =>
      cases oc with
      | transport m =>
        have he : handler eff { method := .post, query := some q } key (.transport m)
            = catchResp eff (some q) m := by simp [handler, hfq, hkey]
        refine ⟨_, by rw [he]; rfl, by rw [he]; rfl, ?_, ?_, ?_, ?_⟩ <;>
          simp [catchResp]
      | okBadJson m =>
        have he : handler eff { method := .post, query := some q } key (.okBadJson m)
            = catchResp eff (some q) m := by simp [handler, hfq, hkey]
        refine ⟨_, by rw [he]; rfl, by rw [he]; rfl, ?_, ?_, ?_, ?_⟩ <;>
          simp [catchResp]
      | okJson c =>
        have he : handler eff { method := .post, query := some q } key (.okJson c)
            = { status := 200
                body := some
                  { response := some (enhanceResponse eff.hIdx eff.fIdx
                      (if falsyStr c = true then createFallbackResponse eff.simpleIdx q
                       else c.getD []))
                    query := some q
                    timestamp := some eff.timestamp
                    model := some (str "deepseek-chat") } } := by
          simp [handler, hfq, hkey]
        refine ⟨_, by rw [he], by rw [he], ?_, ?_, ?_, ?_⟩ <;> simp
      | notOk st eb =>
        by_cases hcond : (decide (st = 402) || hasSub eb (str "Insufficient Balance")) = true
        · have he : handler eff { method := .post, query := some q } key (.notOk st eb)
              = { status := 200
                  body := some
                    { response := some (createEnhancedFallbackResponse eff.expId q)
                      query := some q
                      timestamp := some eff.timestamp
                      model := some (str "experience-x-enhanced")
                      note := some (str "DeepSeek API balance issue - using enhanced creative mode") } } := by
            simp [handler, hfq, hkey, hcond]
          refine ⟨_, by rw [he], by rw [he], ?_, ?_, ?_, ?_⟩ <;> simp
        · rw [Bool.not_eq_true] at hcond
          have he : handler eff { method := .post, query := some q } key (.notOk st eb)
              = catchResp eff (some q) (statusMsg st) := by
            simp [handler, hfq, hkey, hcond]
          refine ⟨_, by rw [he]; rfl, by rw [he]; rfl, ?_, ?_, ?_, ?_⟩ <;>
            simp [catchResp]
  · intro hkey
    cases oc with
    | transport m =>
      have he : handlerJs eff { method := .post, query := some q } key (.transport m)
          = catchRespJs eff (some q) m := by simp [handlerJs, hfq, hkey]
      refine ⟨_, by rw [he]; rfl, by rw [he]; rfl, ?_, ?_, ?_, ?_⟩ <;>
        simp [catchRespJs]
    | okBadJson m =>
      have he : handlerJs eff { method := .post, query := some q } key (.okBadJson m)
          = catchRespJs eff (some q) m := by simp [handlerJs, hfq, hkey]
      refine ⟨_, by rw [he]; rfl, by rw [he]; rfl, ?_, ?_, ?_, ?_⟩ <;>
        simp [catchRespJs]
    | notOk st eb =>
      have he : handlerJs eff { method := .post, query := some q } key (.notOk st eb)
          = catchRespJs eff (some q) (statusMsg st) := by simp [handlerJs, hfq, hkey]
      refine ⟨_, by rw [he]; rfl, by rw [he]; rfl, ?_, ?_, ?_, ?_⟩ <;>
        simp [catchRespJs]
    | okJson c =>
      have he : handlerJs eff { method := .post, query := some q } key (.okJson c)
          = { status := 200
              body := some
                { response := some (enhanceResponseJs eff.hIdx
                    (if falsyStr c = true then apologyStr else c.getD []))
                  query := some q
                  timestamp := some eff.timestamp
                  model := some (str "deepseek-chat") } } := by
        simp [handlerJs, hfq, hkey]
      refine ⟨_, by rw [he], by rw [he], ?_, ?_, ?_, ?_⟩ <;> simp

/-- Witness for C4 at a concrete genuine remote success. -/
theorem claim_c4_witness :
    (∃ b : BodyFields,
      (handler eff0 { method := .post, query := some (str "hello") } (some (str "k"))
          (.okJson (some (str "text")))).status = 200
      ∧ (handler eff0 { method := .post, query := some (str "hello") } (some (str "k"))
          (.okJson (some (str "text")))).body = some b
      ∧ b.response.isSome = true
      ∧ b.timestamp = some eff0.timestamp
      ∧ (b.error = none →
          b.query = some (str "hello")
          ∧ (b.model = some (str "experience-x-fallback")
             ∨ b.model = some (str "experience-x-enhanced")
             ∨ b.model = some (str "deepseek-chat")))
      ∧ (b.error.isSome = true → b.query = none ∧ b.model = none ∧ b.note.isSome = true))
    ∧ (falsyStr (some (str "k")) = false →
        ∃ b : BodyFields,
          (handlerJs eff0 { method := .post, query := some (str "hello") } (some (str "k"))
              (.okJson (some (str "text")))).status = 200
          ∧ (handlerJs eff0 { method := .post, query := some (str "hello") } (some (str "k"))
              (.okJson (some (str "text")))).body = some b
          ∧ b.response.isSome = true
          ∧ b.timestamp = some eff0.timestamp
          ∧ (b.error = none → b.query = some (str "hello") ∧ b.model = some (str "deepseek-chat"))
          ∧ (b.error.isSome = true → b.query = none ∧ b.model = none ∧ b.note.isSome = true)) :=
  claim_c4_success_body_fields eff0 (str "hello") (some (str "k")) (.okJson (some (str "text")))
    (by decide)

/-! ## Substring helpers -/

theorem infix_tailR (P x : Str) : x <:+: P ++ x := ⟨P, [], by simp⟩

theorem infix_appL (c : Str) {x t : Str} (h : x <:+: t) : x <:+: t ++ c := by
  obtain ⟨s, u, rfl⟩ := h
  exact ⟨s, u ++ c, by simp⟩

/-- **C7.**  For every non-empty query, each composer's output contains the
    selected theme's name and the query string verbatim as substrings: the
    enhanced composer of `part_000` (theme selected from the query), the
    simple composer of `part_000` (rotating label pool), and the
    `experience.js` composer (random theme), for every possible random
    pick. -/
theorem claim_c7_composer_contains (q expId : Str) (i : Fin 5) (j : Fin 4) (hq : q ≠ []) :
    (q <:+: createEnhancedFallbackResponse expId q
      ∧ (themeBundle q (selectTheme q)).name <:+: createEnhancedFallbackResponse expId q)
    ∧ (q <:+: createFallbackResponse i q
      ∧ simpleThemes.get i <:+: createFallbackResponse i q)
    ∧ (q <:+: createFallbackResponseJs j (some q)
      ∧ ((themesJs (some q)).get j).name <:+: createFallbackResponseJs j (some q)) := by
  refine ⟨⟨?_, ?_⟩, ⟨?_, ?_⟩, ⟨?_, ?_⟩⟩ <;>
    simp only [createEnhancedFallbackResponse, createFallbackResponse,
      createFallbackResponseJs, jsShow] <;>
    repeat
      first
        | exact infix_tailR _ _
        | apply infix_appL

/-- Witness for C7 at a concrete query. -/
theorem claim_c7_witness :
    (str "ocean" <:+: createEnhancedFallbackResponse (str "ABC123XYZ") (str "ocean")
      ∧ (themeBundle (str "ocean") (selectTheme (str "ocean"))).name
          <:+: createEnhancedFallbackResponse (str "ABC123XYZ") (str "ocean"))
    ∧ (str "ocean" <:+: createFallbackResponse 0 (str "ocean")
      ∧ simpleThemes.get (0 : Fin 5) <:+: createFallbackResponse 0 (str "ocean"))
    ∧ (str "ocean" <:+: createFallbackResponseJs 0 (some (str "ocean"))
      ∧ ((themesJs (some (str "ocean"))).get (0 : Fin 4)).name
          <:+: createFallbackResponseJs 0 (some (str "ocean"))) :=
  claim_c7_composer_contains (str "ocean") (str "ABC123XYZ") 0 0 (by decide)

/-- **C6, counterexample.**  The `experience.js` formatter violates the
    claimed pipeline: on the two-paragraph input "A\n\nB" it emits the second
    paragraph bare — no emphasis or bullet prefix anywhere in the output, no
    stripping, no footer. -/
theorem claim_c6_counterexample :
    enhanceResponseJs 0 (str "A\n\nB")
      = str "\n\n🌌 *Digital Experience Engaged* 🌌\n" ++ (str "## A" ++ (str "\n\n" ++ str "B"))
    ∧ hasSub (enhanceResponseJs 0 (str "A\n\nB")) (str "→ ") = false
    ∧ hasSub (enhanceResponseJs 0 (str "A\n\nB")) (str "• ") = false :=
  ⟨by decide, by decide, by decide⟩

/-- **C6, amended.**  The claim holds for the `part_000` formatter
    (`enhanceResponse`): strip the noise set, split on double newlines
    dropping blank paragraphs, render the first as a `## ` title and each
    later one with `→ ` exactly when it contains `**` or exceeds 100
    characters and with `• ` otherwise, each followed by a blank line,
    between a random header and footer.  Two-paragraph input yields exactly
    one title line followed by one classified line.  (The `experience.js`
    formatter instead classifies by index and strips nothing, see the
    counterexample.) -/
theorem claim_c6_formatter_pipeline (h : Fin 4) (f : Fin 3) (r p1 p2 : Str)
    (hp : splitParas (cleanNoise r) = [p1, p2]) :
    enhanceResponse h f r
      = headersList.get h ++ str "\n\n"
        ++ (str "## " ++ p1 ++ str "\n\n") ++ (classPfx p2 ++ p2 ++ str "\n\n")
        ++ footersList.get f
    ∧ (classPfx p2 = str "→ " ∨ classPfx p2 = str "• ")
    ∧ (classPfx p2 = str "→ " ↔ (hasSub p2 (str "**") = true ∨ 100 < p2.length)) := by
  refine ⟨?_, ?_, ?_⟩
  · simp [enhanceResponse, hp, renderParas, renderTail, List.append_assoc]
  · unfold classPfx
    split
    · exact Or.inl rfl
    · exact Or.inr rfl
  · constructor
    · intro he
      have hc : classifyCond p2 = true := by
        by_contra hcf
        rw [Bool.not_eq_true] at hcf
        rw [classPfx, hcf] at he
        exact absurd he (by decide)
      simpa [classifyCond] using hc
    · intro hd
      have hc : classifyCond p2 = true := by
        rcases hd with hd | hd <;> simp [classifyCond, hd]
      simp [classPfx, hc]

/-- Witness for C6 on a concrete two-paragraph input. -/
theorem claim_c6_witness :
    enhanceResponse 0 0 (str "Hello\n\nWorld")
      = headersList.get (0 : Fin 4) ++ str "\n\n"
        ++ (str "## " ++ str "Hello" ++ str "\n\n")
        ++ (classPfx (str "World") ++ str "World" ++ str "\n\n")
        ++ footersList.get (0 : Fin 3)
    ∧ (classPfx (str "World") = str "→ " ∨ classPfx (str "World") = str "• ")
    ∧ (classPfx (str "World") = str "→ "
        ↔ (hasSub (str "World") (str "**") = true ∨ 100 < (str "World").length)) :=
  claim_c6_formatter_pipeline 0 0 (str "Hello\n\nWorld") (str "Hello") (str "World")
    (by decide)

theorem prefixExt {x t : Str} (c : Str) (hp : x <+: t) : x <+: t ++ c := by
  obtain ⟨u, rfl⟩ := hp
  exact ⟨u ++ c, by simp⟩

theorem suffixTail (P x : Str) : x <:+ P ++ x := ⟨P, rfl⟩

/-- **C8, counterexample.**  The `experience.js` formatter violates the
    claim: on the empty string it renders a `## ` title line (not zero
    rendered paragraphs) and appends nothing after it — its output ends with
    the bare title, and no decorative footer of the repository is a suffix
    of it; on all-noise input the noise survives inside the rendered title
    line. -/
theorem claim_c8_counterexample :
    enhanceResponseJs 0 []
      = str "\n\n🌌 *Digital Experience Engaged* 🌌\n" ++ str "## "
    ∧ enhanceResponseJs 0 (str "**__**")
      = str "\n\n🌌 *Digital Experience Engaged* 🌌\n" ++ (str "## " ++ str "**__**")
    ∧ (∀ f : Fin 3, ¬ (footersList.get f <:+ enhanceResponseJs 0 [])) :=
  ⟨by decide, by decide, by decide⟩

/-- **C8, amended.**  The claim holds for the `part_000` formatter
    (`enhanceResponse`): it is total, on every input the output is
    non-empty, starts with the chosen decorative header and ends with the
    chosen decorative footer; on the empty string and on all-noise text the
    paragraph list is empty and the output is exactly header, blank line and
    footer (zero rendered paragraphs).  (The `experience.js` formatter
    variant appends no footer and renders a `## ` title even on empty or
    all-noise input, see the counterexample.) -/
theorem claim_c8_formatter_degenerate :
    (∀ (h : Fin 4) (f : Fin 3) (s : Str),
        enhanceResponse h f s ≠ []
        ∧ headersList.get h <+: enhanceResponse h f s
        ∧ footersList.get f <:+ enhanceResponse h f s)
    ∧ (∀ (h : Fin 4) (f : Fin 3),
        splitParas (cleanNoise []) = []
        ∧ splitParas (cleanNoise (str "**__**")) = []
        ∧ enhanceResponse h f [] = headersList.get h ++ str "\n\n" ++ footersList.get f
        ∧ enhanceResponse h f (str "**__**")
            = headersList.get h ++ str "\n\n" ++ footersList.get f) := by
  constructor
  · intro h f s
    refine ⟨?_, ?_, ?_⟩
    · have hf : footersList.get f ≠ [] := by fin_cases f <;> decide
      simp only [enhanceResponse]
      intro heq
      exact hf (List.append_eq_nil.mp heq).2
    · simp only [enhanceResponse]
      exact prefixExt _ (prefixExt _ (List.prefix_append _ _))
    · simp only [enhanceResponse]
      exact suffixTail _ _
  · intro h f
    refine ⟨by decide, by decide, ?_, ?_⟩ <;> fin_cases h <;> fin_cases f <;> decide

/-! ## Scanner lemmas for the paragraph-count analysis -/

theorem str_nn : str "\n\n" = ['\n', '\n'] := rfl

theorem countNE_cons_pos {x : Str} {l : List Str} (hx : neStr x = true) :
    countNE (x :: l) = countNE l + 1 := by
  simp [countNE, List.filter, hx]

theorem countNE_cons_neg {x : Str} {l : List Str} (hx : neStr x = false) :
    countNE (x :: l) = countNE l := by
  simp [countNE, List.filter, hx]

theorem noNN_tail {c : Char} {s : Str} (h : noNN (c :: s) = true) : noNN s = true := by
  cases s with
  | nil => rfl
  | cons d t =>
    simp only [noNN, Bool.and_eq_true] at h
    exact h.2

theorem noNN_snoc (xs : Str) (c : Char) :
    noNN (xs ++ [c]) = (noNN xs && !(endsNl xs && decide (c = '\n'))) := by
  induction xs with
  | nil => simp [noNN, endsNl]
  | cons a xs' ih =>
    cases xs' with
    | nil =>
      by_cases ha : a = '\n' <;> by_cases hc : c = '\n' <;>
        simp [noNN, endsNl, ha, hc]
    | cons b xs'' =>
      simp only [List.cons_append] at ih ⊢
      simp only [noNN, ih, endsNl, List.getLast?_cons_cons]
      cases hn : noNN (b :: xs'') <;>
        by_cases ha : a = '\n' <;> by_cases hb : b = '\n' <;>
          simp [ha, hb, hn, endsNl]

theorem noNN_reverse (xs : Str) : noNN xs.reverse = noNN xs := by
  induction xs with
  | nil => rfl
  | cons c xs' ih =>
    rw [List.reverse_cons, noNN_snoc, ih]
    cases xs' with
    | nil => simp [noNN, endsNl]
    | cons d xs'' =>
      have he : endsNl ((d :: xs'').reverse) = decide (d = '\n') := by
        simp [endsNl, List.getLast?_reverse]
      rw [he]
      simp only [noNN]
      cases hn : noNN (d :: xs'') <;>
        by_cases hc : c = '\n' <;> by_cases hd : d = '\n' <;>
          simp [hc, hd, hn]

/-- Scanning a fragment with no adjacent newlines finds no separator. -/
theorem go_noNN (s : Str) : ∀ acc, noNN s = true → splitNNGo s acc = [acc.reverse ++ s] := by
  induction s with
  | nil => intro acc _; simp [splitNNGo]
  | cons c s' ih =>
    intro acc hnn
    cases s' with
    | nil => simp [splitNNGo]
    | cons d s'' =>
      simp only [noNN, Bool.and_eq_true, decide_eq_true_eq] at hnn
      simp only [splitNNGo]
      rw [if_neg hnn.1, ih (c :: acc) hnn.2]
      simp

/-- Scanning a newline-free chunk just accumulates it. -/
theorem go_chunk (s : Str) : ∀ t acc, noNl s = true →
    splitNNGo (s ++ t) acc = splitNNGo t (s.reverse ++ acc) := by
  induction s with
  | nil => intro t acc _; simp
  | cons c s' ih =>
    intro t acc hnl
    simp only [noNl, List.all_cons, Bool.and_eq_true, decide_eq_true_eq] at hnl
    cases hst : s' ++ t with
    | nil =>
      obtain ⟨hs0, ht0⟩ := List.append_eq_nil.mp hst
      subst hs0; subst ht0
      simp [splitNNGo]
    | cons d rest =>
      have hns' : noNl s' = true := hnl.2
      rw [List.cons_append, hst]
      simp only [splitNNGo]
      rw [if_neg (fun hand => hnl.1 hand.1), ← hst, ih t (c :: acc) hns']
      simp

/-- Scanning from a separator: emit the accumulator and restart. -/
theorem go_sep (t acc : Str) : splitNNGo ('\n' :: '\n' :: t) acc = acc.reverse :: splitNNGo t [] := by
  simp [splitNNGo]

/-- One non-separator step of the scanner. -/
theorem go_step (c d : Char) (rest acc : Str) (h : ¬(c = '\n' ∧ d = '\n')) :
    splitNNGo (c :: d :: rest) acc = splitNNGo (d :: rest) (c :: acc) := by
  conv_lhs => rw [splitNNGo]
  simp only [if_neg h]

/-- Consuming one fragment (no adjacent newlines, not ending in a newline)
    followed by a separator. -/
theorem go_item_notEnd (r : Str) : ∀ t acc, noNN r = true → endsNl r = false →
    splitNNGo (r ++ '\n' :: '\n' :: t) acc = (acc.reverse ++ r) :: splitNNGo t [] := by
  induction r with
  | nil =>
    intro t acc _ _
    rw [List.nil_append, go_sep]
    simp
  | cons c r' ih =>
    intro t acc hnn hend
    cases r' with
    | nil =>
      have hc : ¬(c = '\n') := by
        simp only [endsNl, List.getLast?_singleton, Option.some.injEq, decide_eq_false_iff_not] at hend
        exact hend
      rw [List.cons_append, List.nil_append, go_step c '\n' ('\n' :: t) acc (fun hand => hc hand.1),
        go_sep]
      simp
    | cons d r'' =>
      simp only [noNN, Bool.and_eq_true, decide_eq_true_eq] at hnn
      have hend2 : endsNl (d :: r'') = false := by
        simpa [endsNl, List.getLast?_cons_cons] using hend
      rw [List.cons_append, List.cons_append, go_step c d _ acc hnn.1, ← List.cons_append,
        ih t (c :: acc) hnn.2 hend2]
      simp

/-- Consuming one fragment that ends in a single newline, followed by a
    separator: the fragment's trailing newline merges with the separator's
    first newline, and the leftover newline is pushed into the next scan. -/
theorem go_item_end (r : Str) : ∀ t acc, noNN r = true → endsNl r = true →
    splitNNGo (r ++ '\n' :: '\n' :: t) acc
      = (acc.reverse ++ r.dropLast) :: splitNNGo ('\n' :: t) [] := by
  induction r with
  | nil =>
    intro t acc _ hend
    simp [endsNl] at hend
  | cons c r' ih =>
    intro t acc hnn hend
    cases r' with
    | nil =>
      have hc : c = '\n' := by
        simpa [endsNl, List.getLast?_singleton] using hend
      subst hc
      rw [List.cons_append, List.nil_append, go_sep]
      simp
    | cons d r'' =>
      simp only [noNN, Bool.and_eq_true, decide_eq_true_eq] at hnn
      have hend2 : endsNl (d :: r'') = true := by
        simpa [endsNl, List.getLast?_cons_cons] using hend
      rw [List.cons_append, List.cons_append, go_step c d _ acc hnn.1, ← List.cons_append,
        ih t (c :: acc) hnn.2 hend2]
      simp [List.dropLast]

/-- Every fragment the scanner emits is free of adjacent newlines. -/
theorem go_frags (s acc : Str) : noNN acc = true →
    (acc.head? = some '\n' → s.head? ≠ some '\n') →
    ∀ p ∈ splitNNGo s acc, noNN p = true := by
  induction s, acc using splitNNGo.induct with
  | case1 acc =>
    intro hacc _ p hp
    simp only [splitNNGo, List.mem_singleton] at hp
    subst hp
    rw [noNN_reverse]
    exact hacc
  | case2 c acc =>
    intro hacc hinv p hp
    simp only [splitNNGo, List.mem_singleton] at hp
    subst hp
    rw [noNN_reverse]
    cases acc with
    | nil => rfl
    | cons a t =>
      simp only [noNN, Bool.and_eq_true, decide_eq_true_eq]
      refine ⟨fun hand => ?_, hacc⟩
      exact (hinv (by rw [hand.2]; rfl)) (by rw [hand.1]; rfl)
  | case3 c acc d rest hcd ih =>
    intro hacc _ p hp
    rw [show c :: d :: rest = '\n' :: '\n' :: rest from by rw [hcd.1, hcd.2], go_sep] at hp
    rcases List.mem_cons.mp hp with hp | hp
    · subst hp
      rw [noNN_reverse]
      exact hacc
    · exact ih rfl (fun h => by cases h) p hp
  | case4 c acc d rest hcd ih =>
    intro hacc hinv p hp
    rw [go_step c d rest acc hcd] at hp
    have hca : noNN (c :: acc) = true := by
      cases acc with
      | nil => rfl
      | cons a t =>
        simp only [noNN, Bool.and_eq_true, decide_eq_true_eq]
        refine ⟨fun hand => ?_, hacc⟩
        exact (hinv (by rw [hand.2]; rfl)) (by rw [hand.1]; rfl)
    have hinv2 : (c :: acc).head? = some '\n' → (d :: rest).head? ≠ some '\n' := by
      intro h1 h2
      simp only [List.head?_cons, Option.some.injEq] at h1 h2
      exact hcd ⟨h1, h2⟩
    exact ih hca hinv2 p hp

/-! ## Lemmas about blank-paragraph detection -/

theorem trimStr_eq_nil_iff (p : Str) : trimStr p = [] ↔ ∀ c ∈ p, c.isWhitespace := by
  unfold trimStr
  rw [List.reverse_eq_nil_iff, List.dropWhile_eq_nil_iff]
  constructor
  · intro h c hc
    have hsplit := List.takeWhile_append_dropWhile (p := Char.isWhitespace) (l := p)
    rw [← hsplit] at hc
    rcases List.mem_append.mp hc with h1 | h2
    · exact List.mem_takeWhile_imp h1
    · exact h c (List.mem_reverse.mpr h2)
  · intro h c hc
    exact h c (List.dropWhile_subset _ (List.mem_reverse.mp hc))

theorem neStr_iff (p : Str) : neStr p = true ↔ ∃ c ∈ p, ¬ c.isWhitespace = true := by
  unfold neStr
  rw [decide_eq_true_iff]
  constructor
  · intro h
    by_contra hne
    push_neg at hne
    rw [show trimStr p = [] from (trimStr_eq_nil_iff p).mpr hne] at h
    exact absurd h (by simp)
  · rintro ⟨c, hc, hw⟩
    rcases Nat.eq_zero_or_pos (trimStr p).length with h0 | h0
    · exact absurd ((trimStr_eq_nil_iff p).mp (List.length_eq_zero.mp h0) c hc) hw
    · exact h0

theorem neStr_append_left {x : Str} (y : Str) (h : neStr x = true) : neStr (x ++ y) = true := by
  rw [neStr_iff] at h ⊢
  obtain ⟨c, hc, hw⟩ := h
  exact ⟨c, List.mem_append.mpr (Or.inl hc), hw⟩

theorem neStr_append_right {y : Str} (x : Str) (h : neStr y = true) : neStr (x ++ y) = true := by
  rw [neStr_iff] at h ⊢
  obtain ⟨c, hc, hw⟩ := h
  exact ⟨c, List.mem_append.mpr (Or.inr hc), hw⟩

theorem neStr_ws_prepend {a : Str} (y : Str) (hws : wsOnly a) : neStr (a ++ y) = neStr y := by
  have hiff : neStr (a ++ y) = true ↔ neStr y = true := by
    rw [neStr_iff, neStr_iff]
    constructor
    · rintro ⟨c, hc, hw⟩
      rcases List.mem_append.mp hc with h1 | h2
      · exact absurd (hws c h1) hw
      · exact ⟨c, h2, hw⟩
    · rintro ⟨c, hc, hw⟩
      exact ⟨c, List.mem_append.mpr (Or.inr hc), hw⟩
  cases hy : neStr y with
  | true => exact hiff.mpr hy
  | false =>
    cases hxy : neStr (a ++ y) with
    | true => rw [← hy, ← hxy]; exact absurd (hiff.mp hxy) (by rw [hy]; simp)
    | false => rfl

theorem wsOnly_reverse {a : Str} (h : wsOnly a) : wsOnly a.reverse :=
  fun c hc => h c (List.mem_reverse.mp hc)

theorem neStr_dropLast {r : Str} (h : neStr r = true) (he : endsNl r = true) :
    neStr r.dropLast = true := by
  rw [neStr_iff] at h ⊢
  obtain ⟨c, hc, hw⟩ := h
  have hne : r ≠ [] := by rintro rfl; simp [endsNl] at he
  have hr := List.dropLast_append_getLast hne
  rw [← hr] at hc
  rcases List.mem_append.mp hc with h1 | h2
  · exact ⟨c, h1, hw⟩
  · exfalso
    simp only [List.mem_singleton] at h2
    subst h2
    have hgl : r.getLast? = some '\n' := by simpa [endsNl] using he
    rw [List.getLast?_eq_getLast r hne, Option.some.injEq] at hgl
    rw [hgl] at hw
    exact hw (by decide)

theorem neStr_of_cons_ws {c : Char} {s : Str} (hc : c.isWhitespace = true)
    (h : neStr (c :: s) = true) : neStr s = true := by
  rw [neStr_iff] at h ⊢
  obtain ⟨x, hx, hw⟩ := h
  rcases List.mem_cons.mp hx with h1 | h2
  · exact absurd (h1 ▸ hc) hw
  · exact ⟨x, h2, hw⟩

/-- Prepending a newline-free chunk preserves freedom from adjacent
    newlines. -/
theorem noNN_chunk_prepend (a : Str) : ∀ p : Str, noNl a = true → noNN p = true →
    noNN (a ++ p) = true := by
  induction a with
  | nil => intro p _ hp; exact hp
  | cons c a' ih =>
    intro p hnl hp
    simp only [noNl, List.all_cons, Bool.and_eq_true, decide_eq_true_eq] at hnl
    have hrec := ih p hnl.2 hp
    rw [List.cons_append]
    cases hap : a' ++ p with
    | nil => rfl
    | cons d rest =>
      rw [hap] at hrec
      simp only [noNN, Bool.and_eq_true, decide_eq_true_eq]
      exact ⟨fun hand => hnl.1 hand.1, hrec⟩

theorem wsOnly_nil : wsOnly [] := fun x hx => by cases hx

theorem wsOnly_nl : wsOnly ['\n'] := by
  intro x hx
  simp only [List.mem_singleton] at hx
  subst hx
  decide

theorem wsOnly_nl_cons {a : Str} (h : wsOnly a) : wsOnly ('\n' :: a) := by
  intro x hx
  rcases List.mem_cons.mp hx with h1 | h2
  · subst h1; decide
  · exact h x h2

/-- The master count: scanning a list of good items, each followed by a blank
    line, then a footer that starts with a newline and has no adjacent
    newlines, yields one kept fragment per item plus one for the footer —
    whether the scan starts fresh (on blank accumulated text) or with one
    pending newline. -/
theorem countNE_joinA (F : Str) (hFnn : noNN F = true) (hFne : neStr F = true)
    (hFhd : F.head? = some '\n') :
    ∀ items : List Str,
      (∀ r ∈ items, noNN r = true ∧ neStr r = true ∧ r.head? ≠ some '\n') →
      (∀ acc : Str, wsOnly acc →
        countNE (splitNNGo (joinA items ++ F) acc) = items.length + 1)
      ∧ countNE (splitNNGo ('\n' :: (joinA items ++ F)) []) = items.length + 1 := by
  obtain ⟨Fc, rfl⟩ : ∃ Fc, F = '\n' :: Fc := by
    cases F with
    | nil => simp at hFhd
    | cons a t =>
      have ha : a = '\n' := by simpa using hFhd
      exact ⟨t, by rw [ha]⟩
  have hFcnn : noNN Fc = true := noNN_tail hFnn
  have hFcne : neStr Fc = true := neStr_of_cons_ws (by decide) hFne
  intro items
  induction items with
  | nil =>
    intro _
    constructor
    · intro acc hacc
      rw [show joinA [] ++ ('\n' :: Fc) = '\n' :: Fc from by simp [joinA]]
      cases Fc with
      | nil => exact absurd hFcne (by decide)
      | cons d Fc' =>
        have hd : ¬('\n' = '\n' ∧ d = '\n') := by
          simp only [noNN, Bool.and_eq_true, decide_eq_true_eq] at hFnn
          exact fun hand => hFnn.1 ⟨trivial, hand.2⟩
        rw [go_step '\n' d Fc' acc hd, go_noNN (d :: Fc') ('\n' :: acc) hFcnn,
          countNE_cons_pos (by rw [neStr_ws_prepend _ (wsOnly_reverse (wsOnly_nl_cons hacc))]; exact hFcne)]
        rfl
    · rw [show joinA [] ++ ('\n' :: Fc) = '\n' :: Fc from by simp [joinA], go_sep,
        go_noNN Fc [] hFcnn]
      simp only [List.reverse_nil, List.nil_append]
      rw [countNE_cons_neg (by decide), countNE_cons_pos hFcne]
      rfl
  | cons r rs ih =>
    intro hgood
    obtain ⟨hr1, hr2, hr3⟩ := hgood r (List.mem_cons_self r rs)
    have hrs := fun x hx => hgood x (List.mem_cons_of_mem r hx)
    obtain ⟨ihP1, ihP2⟩ := ih hrs
    have hshape : joinA (r :: rs) ++ ('\n' :: Fc)
        = r ++ '\n' :: '\n' :: (joinA rs ++ ('\n' :: Fc)) := by
      simp [joinA, List.append_assoc]
    have P1 : ∀ acc : Str, wsOnly acc →
        countNE (splitNNGo (joinA (r :: rs) ++ ('\n' :: Fc)) acc) = (r :: rs).length + 1 := by
      intro acc hacc
      rw [hshape]
      cases hend : endsNl r with
      | false =>
        rw [go_item_notEnd r _ acc hr1 hend,
          countNE_cons_pos (by rw [neStr_ws_prepend _ (wsOnly_reverse hacc)]; exact hr2),
          ihP1 [] wsOnly_nil]
        simp
      | true =>
        rw [go_item_end r _ acc hr1 hend,
          countNE_cons_pos
            (by rw [neStr_ws_prepend _ (wsOnly_reverse hacc)]; exact neStr_dropLast hr2 hend),
          ihP2]
        simp
    refine ⟨P1, ?_⟩
    obtain ⟨c, r₂, rfl⟩ : ∃ c r₂, r = c :: r₂ := by
      cases r with
      | nil => exact absurd hr2 (by decide)
      | cons c r₂ => exact ⟨c, r₂, rfl⟩
    have hc : ¬(c = '\n') := by simpa using hr3
    rw [hshape, List.cons_append, go_step '\n' c _ [] (fun hand => hc hand.2),
      ← List.cons_append, ← hshape]
    exact P1 ['\n'] wsOnly_nl

theorem renderTail_eq_joinA (rs : List Str) :
    renderTail rs = joinA (rs.map fun p => classPfx p ++ p) := by
  induction rs with
  | nil => rfl
  | cons p rs ih =>
    simp only [renderTail, List.map_cons, joinA, ih, str_nn]
    simp [List.append_assoc]

theorem renderParas_eq (paras : List Str) :
    renderParas paras = joinA (renderedItems paras) := by
  cases paras with
  | nil => rfl
  | cons p rest =>
    simp only [renderParas, renderedItems, joinA, renderTail_eq_joinA, str_nn]
    simp [List.append_assoc]

/-- Scan of a full formatter output whose header carries two leading
    newlines. -/
theorem countNE_top2 (Hc rest : Str) (hnl : noNl Hc = true) (hne : neStr Hc = true) :
    countNE (splitNNGo ('\n' :: '\n' :: (Hc ++ ('\n' :: '\n' :: '\n' :: rest))) [])
      = 1 + countNE (splitNNGo ('\n' :: rest) []) := by
  rw [go_sep, countNE_cons_neg (by decide), go_chunk Hc _ [] hnl, go_sep]
  rw [countNE_cons_pos (by simpa using hne)]
  omega

/-- Scan of a full formatter output whose header carries a single leading
    newline. -/
theorem countNE_top1 (Hc rest : Str) (hnl : noNl Hc = true) (hne : neStr Hc = true) :
    countNE (splitNNGo ('\n' :: (Hc ++ ('\n' :: '\n' :: '\n' :: rest))) [])
      = 1 + countNE (splitNNGo ('\n' :: rest) []) := by
  obtain ⟨c, Hc', rfl⟩ : ∃ c Hc', Hc = c :: Hc' := by
    cases Hc with
    | nil => exact absurd hne (by decide)
    | cons c Hc' => exact ⟨c, Hc', rfl⟩
  have hc : ¬(c = '\n') := by
    simp only [noNl, List.all_cons, Bool.and_eq_true, decide_eq_true_eq] at hnl
    exact hnl.1
  rw [List.cons_append, go_step '\n' c _ [] (fun hand => hc hand.2), ← List.cons_append,
    go_chunk (c :: Hc') _ ['\n'] hnl, go_sep]
  rw [countNE_cons_pos ?_]
  · omega
  · rw [show ((c :: Hc').reverse ++ ['\n']).reverse = ['\n'] ++ (c :: Hc') from by simp]
    rw [neStr_ws_prepend _ wsOnly_nl]
    exact hne

/-- The `part_000` formatter always yields exactly two more kept paragraphs
    (the decorative header and footer) than the noise-stripped input has. -/
theorem paraCount_enhance (h : Fin 4) (f : Fin 3) (s : Str) :
    paraCount (enhanceResponse h f s) = paraCount (cleanNoise s) + 2 := by
  have hF : noNN (footersList.get f) = true ∧ neStr (footersList.get f) = true
      ∧ (footersList.get f).head? = some '\n' := by
    fin_cases f <;> exact ⟨by decide, by decide, by decide⟩
  have hH : ∃ Hc : Str, noNl Hc = true ∧ neStr Hc = true ∧
      (headersList.get h = '\n' :: '\n' :: (Hc ++ ['\n'])
        ∨ headersList.get h = '\n' :: (Hc ++ ['\n'])) := by
    fin_cases h
    · exact ⟨str "🌌 **DIGITAL REALITY MANIFESTED** 🌌", by decide, by decide,
        Or.inl (by decide)⟩
    · exact ⟨str "⚡ **NEURAL INTERFACE ACTIVATED** ⚡", by decide, by decide,
        Or.inr (by decide)⟩
    · exact ⟨str "🌀 **QUANTUM FIELD STABILIZED** 🌀", by decide, by decide,
        Or.inr (by decide)⟩
    · exact ⟨str "✨ **SENSORY MATRIX ENGAGED** ✨", by decide, by decide,
        Or.inr (by decide)⟩
  set paras := splitParas (cleanNoise s) with hparasdef
  have hpara_nn : ∀ p ∈ paras, noNN p = true := by
    intro p hp
    have hp2 : p ∈ splitNN (cleanNoise s) := List.mem_of_mem_filter hp
    exact go_frags (cleanNoise s) [] rfl (fun hx => absurd hx (by simp)) p hp2
  have hcp2 : ∀ p2 : Str, classPfx p2 = str "→ " ∨ classPfx p2 = str "• " := by
    intro p2
    unfold classPfx
    split
    · exact Or.inl rfl
    · exact Or.inr rfl
  have hitems : ∀ r ∈ renderedItems paras,
      noNN r = true ∧ neStr r = true ∧ r.head? ≠ some '\n' := by
    intro r hr
    cases hpc : paras with
    | nil => rw [hpc] at hr; cases hr
    | cons p rest =>
      rw [hpc] at hr
      rcases List.mem_cons.mp hr with h1 | h2
      · subst h1
        have hpn := hpara_nn p (hpc ▸ List.mem_cons_self p rest)
        refine ⟨noNN_chunk_prepend (str "## ") p (by decide) hpn,
          neStr_append_left _ (by decide), ?_⟩
        rw [show str "## " = '#' :: '#' :: ' ' :: [] from rfl]
        simp
      · obtain ⟨p2, hp2mem, rfl⟩ := List.mem_map.mp h2
        have hpn := hpara_nn p2 (hpc ▸ List.mem_cons_of_mem _ hp2mem)
        rcases hcp2 p2 with hcp | hcp <;> rw [hcp]
        · refine ⟨noNN_chunk_prepend _ p2 (by decide) hpn,
            neStr_append_left _ (by decide), ?_⟩
          rw [show str "→ " = '→' :: ' ' :: [] from rfl]
          simp
        · refine ⟨noNN_chunk_prepend _ p2 (by decide) hpn,
            neStr_append_left _ (by decide), ?_⟩
          rw [show str "• " = '•' :: ' ' :: [] from rfl]
          simp
  obtain ⟨P1, P2⟩ :=
    countNE_joinA (footersList.get f) hF.1 hF.2.1 hF.2.2 (renderedItems paras) hitems
  have hlen : (renderedItems paras).length = paras.length := by
    cases paras <;> simp [renderedItems]
  have hcount : paraCount (cleanNoise s) = paras.length := rfl
  have hout : paraCount (enhanceResponse h f s)
      = countNE (splitNNGo (enhanceResponse h f s) []) := rfl
  rw [hout, hcount]
  have hbody : enhanceResponse h f s
      = headersList.get h ++ str "\n\n" ++ joinA (renderedItems paras)
        ++ footersList.get f := by
    simp only [enhanceResponse]
    rw [← hparasdef, renderParas_eq]
  obtain ⟨Hc, hnl, hne, hcase⟩ := hH
  rcases hcase with hH1 | hH1
  · rw [hbody, hH1,
      show ('\n' :: '\n' :: (Hc ++ ['\n'])) ++ str "\n\n" ++ joinA (renderedItems paras)
          ++ footersList.get f
        = '\n' :: '\n' :: (Hc ++ ('\n' :: '\n' :: '\n'
            :: (joinA (renderedItems paras) ++ footersList.get f)))
      from by simp [str_nn, List.append_assoc],
      countNE_top2 _ _ hnl hne, P2, hlen]
    omega
  · rw [hbody, hH1,
      show ('\n' :: (Hc ++ ['\n'])) ++ str "\n\n" ++ joinA (renderedItems paras)
          ++ footersList.get f
        = '\n' :: (Hc ++ ('\n' :: '\n' :: '\n'
            :: (joinA (renderedItems paras) ++ footersList.get f)))
      from by simp [str_nn, List.append_assoc],
      countNE_top1 _ _ hnl hne, P2, hlen]
    omega

set_option maxRecDepth 100000 in
/-- **C9, counterexample.**  Relative to the composer's raw paragraph count
    the formatter's delta is not bounded by its cosmetic decoration (header
    and footer, two paragraphs): a query embedding noise-only paragraphs
    yields a composer document of 21 paragraphs whose formatted version has
    only 17 — the delta of 4 exceeds the two decorative paragraphs added. -/
theorem claim_c9_counterexample :
    paraCount (createEnhancedFallbackResponse (str "ABC123XYZ")
        (str "a\n\n**\n\n**\n\n**\n\nb")) = 21
    ∧ paraCount (enhanceResponse 0 0 (createEnhancedFallbackResponse (str "ABC123XYZ")
        (str "a\n\n**\n\n**\n\n**\n\nb"))) = 17
    ∧ paraCount (enhanceResponse 0 0 (createEnhancedFallbackResponse (str "ABC123XYZ")
        (str "a\n\n**\n\n**\n\n**\n\nb"))) + 2
      < paraCount (createEnhancedFallbackResponse (str "ABC123XYZ")
        (str "a\n\n**\n\n**\n\n**\n\nb")) := by
  have h1 : paraCount (createEnhancedFallbackResponse (str "ABC123XYZ")
      (str "a\n\n**\n\n**\n\n**\n\nb")) = 21 := by decide
  have h2 : paraCount (enhanceResponse 0 0 (createEnhancedFallbackResponse (str "ABC123XYZ")
      (str "a\n\n**\n\n**\n\n**\n\nb"))) = 17 := by decide
  exact ⟨h1, h2, by rw [h1, h2]; omega⟩

/-- **C9, amended.**  Feeding the enhanced composer's output into the
    formatter never fails (both are total functions), and for every query,
    identifier and random pick the formatter's output has exactly two more
    paragraphs (its header and footer) than the composer's output counted
    after noise-stripping; the delta against the raw composer output is not
    bounded in general (see the counterexample). -/
theorem claim_c9_roundtrip_paragraphs (h : Fin 4) (f : Fin 3) (expId q : Str) :
    paraCount (enhanceResponse h f (createEnhancedFallbackResponse expId q))
      = paraCount (cleanNoise (createEnhancedFallbackResponse expId q)) + 2 :=
  paraCount_enhance h f (createEnhancedFallbackResponse expId q)
